import Mathlib

/-!
Verification of the tool-discovery and invocation layer of the Pi-hole MCP
OpenAPI wrapper (src/api_wrapper.py, src/main.py), as a shallow embedding.

Python values relevant to the discovery code are modelled by the inductive
`PyVal`.  Attribute access, container traversal, the registration-capture
monkeypatch, the registry prober, the tool-map resolver and the `/call_tool`
invocation engine are translated function by function from the source.
Machine-level aspects that the claims do not touch (hash values, builtin
methods of `str`/`dict` objects, the distinction between a coroutine handler
awaited in place and a sync handler run via `asyncio.to_thread`) are noted at
the definition they would affect.
-/

namespace Wrapper

/-- Model of the Python values the discovery layer manipulates.
`vfun` models a callable: `fid` is the object identity, `fname` the value of
`getattr(f, "__name__", None)`, and calling it returns `ret` unless
`retErr = some msg`, in which case the call raises.  `vobj` models a generic
object: `attrs` lists its attributes as `(name, raise?, value)` — accessing an
attribute with `raise? = some msg` raises a non-AttributeError exception
(absent names raise AttributeError, which `getattr(x, n, None)` turns into
`None`) — and `dirNames` is what `dir()` reports.  Builtin methods of
containers and strings are not modelled (they are irrelevant to the claims). -/
inductive PyVal : Type where
  | vnone : PyVal
  | vstr (s : String) : PyVal
  | vfun (fid : Nat) (fname : Option String) (retErr : Option String) (ret : PyVal) : PyVal
  | vdict (entries : List (PyVal × PyVal)) : PyVal
  | vlist (items : List PyVal) : PyVal
  | vtuple (items : List PyVal) : PyVal
  | vset (items : List PyVal) : PyVal
  | vobj (attrs : List (String × Option String × PyVal)) (dirNames : List String) : PyVal

/-- The Python `callable(x)` test, over the modelled universe. -/
def isCallable : PyVal → Bool
  | .vfun _ _ _ _ => true
  | _ => false

/-- Python truthiness (`if x:`) over the modelled universe. -/
def pyTruthy : PyVal → Bool
  | .vnone => false
  | .vstr s => !s.isEmpty
  | .vfun _ _ _ _ => true
  | .vdict es => !es.isEmpty
  | .vlist xs => !xs.isEmpty
  | .vtuple xs => !xs.isEmpty
  | .vset xs => !xs.isEmpty
  | .vobj _ _ => true

/-- Python dict-key equality (`==` as used by `dict`) for the key shapes the
wrapper can actually store: `None`, strings by value, functions by identity
(`fid`).  Keys of other shapes are outside the model (tool names are strings
in every non-pathological run) and are treated as never equal. -/
def keyEq : PyVal → PyVal → Bool
  | .vnone, .vnone => true
  | .vstr a, .vstr b => a = b
  | .vfun i _ _ _, .vfun j _ _ _ => i = j
  | _, _ => false

theorem keyEq_symm (a b : PyVal) : keyEq a b = keyEq b a := by
  cases a <;> cases b <;> simp [keyEq, eq_comm]

theorem keyEq_trans {a b c : PyVal} (h1 : keyEq a b = true) (h2 : keyEq b c = true) :
    keyEq a c = true := by
  cases a <;> cases b <;> simp_all [keyEq] <;> cases c <;> simp_all [keyEq]

/-- Attribute table lookup for `vobj` (first entry with the given name). -/
def attrFind : List (String × Option String × PyVal) → String → Option (Option String × PyVal)
  | [], _ => none
  | (n, r, v) :: rest, name => if n = name then some (r, v) else attrFind rest name

/-- Python `getattr(obj, name, None)`.  The `None` default suppresses only
AttributeError (a missing attribute); an attribute getter that raises any
other exception propagates it, which the `Except` error channel records. -/
def pyGetattr (obj : PyVal) (name : String) : Except String (Option PyVal) :=
  match obj with
  | .vobj attrs _ =>
      match attrFind attrs name with
      | some (some msg, _) => .error msg
      | some (none, v) => .ok (some v)
      | none => .ok none
  | .vfun _ fname _ _ =>
      if name = "__name__" then .ok (fname.map .vstr) else .ok none
  | _ => .ok none

/-- A Python `dict` with `PyVal` keys, as an association list in insertion
order with (`keyEq`-)unique keys. -/
abbrev PyDict : Type := List (PyVal × PyVal)

/-- Python `d.get(k)` / `d[k]`. -/
def lookupD : PyDict → PyVal → Option PyVal
  | [], _ => none
  | (k, v) :: rest, n => if keyEq k n then some v else lookupD rest n

/-- Python `d[k] = v`: overwrite in place if the key is present, else append. -/
def dictAssign : PyDict → PyVal → PyVal → PyDict
  | [], k, v => [(k, v)]
  | (k2, v2) :: rest, k, v =>
      if keyEq k2 k then (k2, v) :: rest else (k2, v2) :: dictAssign rest k v

/-- Python `d.setdefault(k, v)`: insert only if the key is absent. -/
def setdefaultD (d : PyDict) (k v : PyVal) : PyDict :=
  match lookupD d k with
  | some _ => d
  | none => d ++ [(k, v)]

theorem lookupD_dictAssign_eq {k n : PyVal} (d : PyDict) (v : PyVal)
    (h : keyEq k n = true) : lookupD (dictAssign d k v) n = some v := by
  induction d with
  | nil => simp [dictAssign, lookupD, h]
  | cons hd tl ih =>
    obtain ⟨k2, v2⟩ := hd
    by_cases h2 : keyEq k2 k = true
    · simp [dictAssign, h2, lookupD, keyEq_trans h2 h]
    · have h3 : keyEq k2 n = false := by
        by_contra hc
        simp only [Bool.not_eq_false] at hc
        have : keyEq k2 k = true := by
          have hnk : keyEq n k = true := by rw [keyEq_symm]; exact h
          exact keyEq_trans hc hnk
        exact h2 this
      simp only [dictAssign, h2, if_false, lookupD, h3, Bool.false_eq_true, ite_false]
      exact ih

theorem lookupD_dictAssign_ne {k n : PyVal} (d : PyDict) (v : PyVal)
    (h : keyEq k n = false) : lookupD (dictAssign d k v) n = lookupD d n := by
  induction d with
  | nil => simp [dictAssign, lookupD, h]
  | cons hd tl ih =>
    obtain ⟨k2, v2⟩ := hd
    by_cases h2 : keyEq k2 k = true
    · have h3 : keyEq k2 n = false := by
        by_contra hc
        simp only [Bool.not_eq_false] at hc
        have hkn : keyEq k n = true := by
          have := keyEq_trans (by rw [keyEq_symm]; exact h2) hc
          exact this
        rw [h] at hkn; exact Bool.false_ne_true hkn
      simp [dictAssign, h2, lookupD, h3]
    · simp only [dictAssign, h2, if_false, lookupD]
      by_cases h3 : keyEq k2 n = true <;> simp [h3, ih]

/-- Handler attribute names tried by `_looks_like_tool_object`. -/
def llAttrs : List String := ["handler", "func", "callable", "fn"]

/-- Loop body of `_looks_like_tool_object`: for each candidate handler
attribute, re-read `obj.name` and the handler attribute (both via 3-argument
`getattr`, so a raising getter propagates) and accept the pair when the name
is a string and the handler callable. -/
def llLoop (obj : PyVal) : List String → Except String (Option (String × PyVal))
  | [] => .ok none
  | hattr :: rest => do
      let nm ← pyGetattr obj "name"
      let hd ← pyGetattr obj hattr
      match nm, hd with
      | some (.vstr s), some h =>
          if isCallable h then .ok (some (s, h)) else llLoop obj rest
      | _, _ => llLoop obj rest

/-- Final branch of `_looks_like_tool_object`: a two-element tuple or list
`(string, callable)`. -/
def pairCase : PyVal → Option (String × PyVal)
  | .vtuple [.vstr s, h] => if isCallable h then some (s, h) else none
  | .vlist [.vstr s, h] => if isCallable h then some (s, h) else none
  | _ => none

/-- Model of `_looks_like_tool_object` (src/api_wrapper.py:80-90).  A callable
with a `__name__` yields `(obj.__name__, obj)`; otherwise the handler-attribute
loop runs, then the string/callable pair check.  Exceptions from raising
attribute getters propagate (only AttributeError is absorbed by the `getattr`
defaults). -/
def looksLikeToolObject (obj : PyVal) : Except String (Option (String × PyVal)) :=
  match obj with
  | .vfun fid (some s) retErr ret => .ok (some (s, .vfun fid (some s) retErr ret))
  | _ => do
      match ← llLoop obj llAttrs with
      | some r => .ok (some r)
      | none => .ok (pairCase obj)

/-- Dict branch of `_collect_from_container`: string keys only; callable
values are kept via `setdefault`, other values go through the heuristic.  The
returned pair is (table as mutated so far, uncaught exception if any): an
exception raised mid-iteration keeps the `setdefault`s already performed,
matching in-place mutation of `out`. -/
def collectDictEntries : List (PyVal × PyVal) → PyDict → PyDict × Option String
  | [], out => (out, none)
  | (k, v) :: rest, out =>
      match k with
      | .vstr s =>
          if isCallable v then collectDictEntries rest (setdefaultD out (.vstr s) v)
          else
            match looksLikeToolObject v with
            | .error m => (out, some m)
            | .ok (some (n, h)) => collectDictEntries rest (setdefaultD out (.vstr n) h)
            | .ok none => collectDictEntries rest out
      | _ => collectDictEntries rest out

/-- Sequence/set branch of `_collect_from_container`: each element goes
through the heuristic; a raising element aborts with the table so far. -/
def collectSeqItems : List PyVal → PyDict → PyDict × Option String
  | [], out => (out, none)
  | item :: rest, out =>
      match looksLikeToolObject item with
      | .error m => (out, some m)
      | .ok (some (n, h)) => collectSeqItems rest (setdefaultD out (.vstr n) h)
      | .ok none => collectSeqItems rest out

/-- Generic-object branch of `_collect_from_container` (the `dir()` loop).
The whole loop runs inside `try: ... except Exception: pass`, so an exception
(raising getter, raising heuristic) stops the loop but is swallowed, keeping
the entries recorded so far. -/
def collectDirLoop (attrs : List (String × Option String × PyVal)) :
    List String → PyDict → PyDict
  | [], out => out
  | name :: rest, out =>
      if name.startsWith "_" then collectDirLoop attrs rest out
      else
        match attrFind attrs name with
        | some (some _, _) => out
        | acc =>
            let val : PyVal := match acc with | some (_, v) => v | _ => .vnone
            if isCallable val then
              collectDirLoop attrs rest (setdefaultD out (.vstr name) val)
            else
              match looksLikeToolObject val with
              | .error _ => out
              | .ok (some (n, h)) => collectDirLoop attrs rest (setdefaultD out (.vstr n) h)
              | .ok none => collectDirLoop attrs rest out

/-- Generic-object branch entry: `dir()` of values other than modelled
objects is taken to expose no public names (builtin methods of strings,
functions and containers are not modelled). -/
def collectGeneric (container : PyVal) (out : PyDict) : PyDict :=
  match container with
  | .vobj attrs dirNames => collectDirLoop attrs dirNames out
  | _ => out

/-- Model of `_collect_from_container` (src/api_wrapper.py:92-121): dict
branch first, then sequence/set, then the try-wrapped generic branch (which
never lets an exception escape). -/
def collectFromContainer (container : PyVal) (out : PyDict) : PyDict × Option String :=
  match container with
  | .vdict entries => collectDictEntries entries out
  | .vlist items => collectSeqItems items out
  | .vtuple items => collectSeqItems items out
  | .vset items => collectSeqItems items out
  | _ => (collectGeneric container out, none)

theorem collectDictEntries_snd (entries : List (PyVal × PyVal)) (out out' : PyDict) :
    (collectDictEntries entries out).2 = (collectDictEntries entries out').2 := by
  induction entries generalizing out out' with
  | nil => rfl
  | cons hd rest ih =>
    obtain ⟨k, v⟩ := hd
    cases k
    case vstr s =>
      by_cases hc : isCallable v = true
      · simpa [collectDictEntries, hc] using
          ih (setdefaultD out (.vstr s) v) (setdefaultD out' (.vstr s) v)
      · rcases h : looksLikeToolObject v with m | o
        · simp [collectDictEntries, hc, h]
        · rcases o with _ | ⟨n, hh⟩
          · simpa [collectDictEntries, hc, h] using ih out out'
          · simpa [collectDictEntries, hc, h] using
              ih (setdefaultD out (.vstr n) hh) (setdefaultD out' (.vstr n) hh)
    all_goals exact ih out out'

theorem collectSeqItems_snd (items : List PyVal) (out out' : PyDict) :
    (collectSeqItems items out).2 = (collectSeqItems items out').2 := by
  induction items generalizing out out' with
  | nil => rfl
  | cons item rest ih =>
    rcases h : looksLikeToolObject item with m | o
    · simp [collectSeqItems, h]
    · rcases o with _ | ⟨n, hh⟩
      · simpa [collectSeqItems, h] using ih out out'
      · simpa [collectSeqItems, h] using
          ih (setdefaultD out (.vstr n) hh) (setdefaultD out' (.vstr n) hh)

theorem collectFromContainer_snd (c : PyVal) (out out' : PyDict) :
    (collectFromContainer c out).2 = (collectFromContainer c out').2 := by
  cases c
  case vdict entries => exact collectDictEntries_snd entries out out'
  case vlist items => exact collectSeqItems_snd items out out'
  case vtuple items => exact collectSeqItems_snd items out out'
  case vset items => exact collectSeqItems_snd items out out'
  all_goals rfl

/-- A container whose traversal by `_collect_from_container` raises no
exception (accumulator-independent by `collectFromContainer_snd`). -/
def errFree (c : PyVal) : Bool := ((collectFromContainer c []).2).isNone

/-- Registry attribute names probed on the root and on each parent. -/
def registryAttrs : List String :=
  ["tools", "_tools", "registered_tools", "tool_registry", "registry", "router"]

/-- Parent/delegate attribute names probed on the root. -/
def parentAttrs : List String := ["server", "_server", "app"]

/-- Sub-accessor names probed on each candidate. -/
def subAttrs : List String := ["tools", "_tools", "items", "values"]

/-- The Python `x is None` test. -/
def isNoneV : PyVal → Bool
  | .vnone => true
  | _ => false

/-- One candidate: `getattr(x, a, None)` (a missing attribute becomes `None`;
a raising getter propagates). -/
def getCand (x : PyVal) (a : String) : Except String PyVal :=
  (pyGetattr x a).map (fun o => o.getD .vnone)

/-- Candidates gathered from `x` over a list of registry attribute names. -/
def candsOf (x : PyVal) : List String → Except String (List PyVal)
  | [] => .ok []
  | a :: rest => do
      let c ← getCand x a
      let cs ← candsOf x rest
      .ok (c :: cs)

/-- Parent loop of `_probe_tool_registry`: each non-`None` parent is itself a
candidate, followed by its own registry attributes, before the next parent is
inspected. -/
def parentLoop (root : PyVal) : List String → Except String (List PyVal)
  | [] => .ok []
  | pa :: rest => do
      let parent ← getCand root pa
      if isNoneV parent then parentLoop root rest
      else do
        let mine ← candsOf parent registryAttrs
        let more ← parentLoop root rest
        .ok (parent :: (mine ++ more))

/-- Candidate collection of `_probe_tool_registry` (src/api_wrapper.py:124-133):
root registry attributes first, then parents and their registry attributes.
None of these `getattr` calls is inside a `try`. -/
def collectCandidates (root : PyVal) : Except String (List PyVal) := do
  let base ← candsOf root registryAttrs
  let ps ← parentLoop root parentAttrs
  .ok (base ++ ps)

/-- The `None`-skip and seen-set filter (src/api_wrapper.py:134-142).  CPython
de-duplicates by `id(c)`; identical objects are equal values in the model, and
re-traversing a candidate is idempotent (the tables use `setdefault`), so the
`keyEq`-based filter is behaviour-preserving. -/
def dedupFlat (seen : List PyVal) : List PyVal → List PyVal
  | [] => []
  | c :: rest =>
      if isNoneV c then dedupFlat seen rest
      else if seen.any (fun s => keyEq s c) then dedupFlat seen rest
      else c :: dedupFlat (c :: seen) rest

/-- Python `sub() if callable(sub) else sub`. -/
def callIfCallable (v : PyVal) : Except String PyVal :=
  match v with
  | .vfun _ _ (some m) _ => .error m
  | .vfun _ _ none ret => .ok ret
  | _ => .ok v

/-- One try-wrapped sub-accessor probe (src/api_wrapper.py:147-155): look up
`subname` on the candidate, call it if callable, collect from the result;
every exception is swallowed, keeping whatever was already recorded. -/
def subProbe (c : PyVal) (subname : String) (found : PyDict) : PyDict :=
  match pyGetattr c subname with
  | .error _ => found
  | .ok o =>
      let sub := o.getD .vnone
      match callIfCallable sub with
      | .error _ => found
      | .ok sub2 => if isNoneV sub2 then found else (collectFromContainer sub2 found).1

/-- All four sub-accessor probes for one candidate, in order. -/
def subAll (c : PyVal) : PyDict → List String → PyDict
  | found, [] => found
  | found, s :: rest => subAll c (subProbe c s found) rest

/-- Main loop of `_probe_tool_registry`: `_collect_from_container(c, found)`
(whose exceptions are not caught here and so abort the probe), then the
try-wrapped sub-accessor probes. -/
def probeLoop : List PyVal → PyDict → Except String PyDict
  | [], found => .ok found
  | c :: rest, found =>
      match collectFromContainer c found with
      | (_, some m) => .error m
      | (found2, none) => probeLoop rest (subAll c found2 subAttrs)

/-- Model of `_probe_tool_registry` (src/api_wrapper.py:123-156). -/
def probeToolRegistry (root : PyVal) : Except String PyDict := do
  let cs ← collectCandidates root
  probeLoop (dedupFlat [] cs) []

/-- Python `targs and isinstance(targs[0], str)` with the matched string. -/
def headStr : List PyVal → Option String
  | .vstr s :: _ => some s
  | _ => none

/-- Name resolution inside the decorator of `_patched_tool` (src/api_wrapper.py:47-53):
`tool_name = tkwargs.get("name")`, replaced — whenever it is falsy, which
includes an explicitly passed empty string — by the first positional argument
when that is a string, else by `getattr(func, "__name__", None) or
"unnamed_tool"`. -/
def resolveToolName (nameKw : Option PyVal) (targs : List PyVal)
    (funcName : Option String) : PyVal :=
  let tn := nameKw.getD .vnone
  if pyTruthy tn then tn
  else
    match headStr targs with
    | some s => .vstr s
    | none =>
        match funcName with
        | some s => if s.isEmpty then .vstr "unnamed_tool" else .vstr s
        | none => .vstr "unnamed_tool"

/-- One intercepted registration: the `name` keyword argument of the
`@mcp.tool(...)` call if present, its positional arguments, and the decorated
function. -/
structure Reg where
  nameKw : Option PyVal
  targs : List PyVal
  func : PyVal

/-- Python `getattr(func, "__name__", None)` for the decorated function. -/
def funcDunderName : PyVal → Option String
  | .vfun _ fname _ _ => fname
  | _ => none

/-- The name under which a registration is recorded. -/
def regName (r : Reg) : PyVal := resolveToolName r.nameKw r.targs (funcDunderName r.func)

/-- Effect of one intercepted registration on `CAPTURED_TOOLS`
(src/api_wrapper.py:56-57): `CAPTURED_TOOLS[tool_name] = func` — a plain dict
assignment — performed only when the function is callable. -/
def captureStep (d : PyDict) (r : Reg) : PyDict :=
  if isCallable r.func then dictAssign d (regName r) r.func else d

/-- The `CAPTURED_TOOLS` table after a sequence of intercepted registrations. -/
def captureTable (regs : List Reg) : PyDict := regs.foldl captureStep []

/-- Modelled from the words of the amended claim: the handler of the latest
registration in the sequence that resolved to the given name with a callable
function (a later matching registration overrides an earlier one). -/
def lastWriter : List Reg → PyVal → Option PyVal
  | [], _ => none
  | r :: rest, n =>
      match lastWriter rest n with
      | some v => some v
      | none => if isCallable r.func && keyEq (regName r) n then some r.func else none

/-- The dict comprehension of resolution tier 3 (src/api_wrapper.py:169):
keep entries with a string key and a callable value. -/
def dictComp (es : List (PyVal × PyVal)) : PyDict :=
  es.foldl
    (fun d kv =>
      match kv with
      | (.vstr s, v) => if isCallable v then dictAssign d (.vstr s) v else d
      | _ => d) []

/-- The mapping tier 3 yields for a given `EXPOSED_TOOLS` module attribute
(`none` models an absent attribute): non-empty dicts are filtered, anything
else yields nothing. -/
def filteredExportMap (exposed : Option PyVal) : PyDict :=
  match exposed with
  | some (.vdict es) => if es.isEmpty then [] else dictComp es
  | _ => []

/-- Model of the module-level `TOOL_MAP` resolution (src/api_wrapper.py:158-172):
start from a copy of the capture table; if empty, probe the root instance
(whose exceptions would abort startup); if still empty and `EXPOSED_TOOLS` is
a non-empty dict, take its filtered entries; if the result is empty, raise
`RuntimeError`, aborting startup before the app serves anything. -/
def resolveToolMap (captured : PyDict) (root : PyVal) (exposed : Option PyVal) :
    Except String PyDict := do
  let tm0 : PyDict := captured
  let tm1 ← if tm0.isEmpty then probeToolRegistry root else .ok tm0
  let tm2 : PyDict :=
    if tm1.isEmpty then
      match exposed with
      | some (.vdict es) => if es.isEmpty then tm1 else dictComp es
      | _ => tm1
    else tm1
  if tm2.isEmpty then
    .error "Unable to locate any tools: capture failed, registry not found, and no EXPOSED_TOOLS provided."
  else .ok tm2

/-- Parameter kinds of `inspect.Parameter`. -/
inductive PKind : Type where
  | posOnly | posOrKw | kwOnly | varPos | varKw
  deriving DecidableEq, Repr

/-- One entry of `inspect.signature(func).parameters`:
`hasDefault = false` models `p.default is p.empty`. -/
structure Param where
  name : String
  kind : PKind
  hasDefault : Bool
  deriving DecidableEq, Repr

/-- Outcome of executing a handler body: a returned value, a raised
`HTTPException`, or any other raised exception (its stringified form). -/
inductive RunOut : Type where
  | retOk (v : PyVal)
  | raiseHTTP (status : Nat) (detail : String)
  | raiseOther (msg : String)

/-- A tool handler: its inspectable signature (`none` when
`inspect.signature` raises `ValueError`/`TypeError`) and its behaviour as a
function of the keyword arguments it is invoked with.  The
`iscoroutinefunction` split in `call_tool` is not modelled: an async handler
awaited in place and a sync handler awaited through `asyncio.to_thread`
produce the same value or exception. -/
structure Handler : Type where
  sig : Option (List Param)
  run : List (String × PyVal) → RunOut

/-- JSON-object arguments of a call request, keyed by strings. -/
abbrev Args : Type := List (String × PyVal)

/-- Lookup in a string-keyed mapping (Python `d.get(k)` / `k in d`). -/
def lookupS {α : Type} : List (String × α) → String → Option α
  | [], _ => none
  | (k, v) :: rest, n => if k = n then some v else lookupS rest n

/-- The `/call_tool` request body. -/
structure CallRequest : Type where
  tool : String
  args : Args

/-- The response of the façade to `/call_tool`: the success envelope or an
`HTTPException` with status and detail. -/
inductive Response : Type where
  | ok (tool : String) (result : PyVal)
  | httpError (status : Nat) (detail : String)

/-- The binding loop of `call_tool` (src/api_wrapper.py:215-220): walk the
declared parameters in order; named-or-positional and named-only parameters
present in `args` are bound; one that is absent with no default raises
`HTTPException(400)` (which the surrounding `except (ValueError, TypeError)`
does not catch); all other parameter kinds are skipped. -/
def bindGo : List Param → Args → Except Response Args
  | [], _ => .ok []
  | p :: rest, args =>
      if p.kind = .posOrKw ∨ p.kind = .kwOnly then
        match lookupS args p.name with
        | some v => do
            let k ← bindGo rest args
            .ok ((p.name, v) :: k)
        | none =>
            if !p.hasDefault then
              .error (.httpError 400 ("Missing required parameter: " ++ p.name))
            else bindGo rest args
      else bindGo rest args

/-- The keyword mapping the binding loop builds when it does not raise. -/
def boundKwargs : List Param → Args → Args
  | [], _ => []
  | p :: rest, args =>
      if p.kind = .posOrKw ∨ p.kind = .kwOnly then
        match lookupS args p.name with
        | some v => (p.name, v) :: boundKwargs rest args
        | none => boundKwargs rest args
      else boundKwargs rest args

/-- A named-or-positional or named-only parameter kind. -/
def isNamedKind (k : PKind) : Bool := k = .posOrKw || k = .kwOnly

/-- The first parameter, in declaration order, that the binding loop will
report as missing: named kind, no default, name absent from `args`. -/
def firstMissingReq (ps : List Param) (args : Args) : Option Param :=
  ps.find? (fun p => isNamedKind p.kind && !p.hasDefault && (lookupS args p.name).isNone)

/-- Keyword-binding performed by the Python call `func(**kwargs)` itself, for
a handler with an inspectable signature: a positional-only parameter without a
default can never be bound from keywords; a required named parameter must be
present; without a `**kwargs` collector, a keyword matching no named parameter
(including one naming a positional-only parameter) is rejected.  The exact
CPython `TypeError` messages are abbreviated. -/
def pyBindCall (ps : List Param) (kwargs : Args) : Option String :=
  match ps.find? (fun p => p.kind = PKind.posOnly && !p.hasDefault) with
  | some p => some ("missing a required positional-only argument: " ++ p.name)
  | none =>
      match ps.find? (fun p =>
          isNamedKind p.kind && !p.hasDefault && (lookupS kwargs p.name).isNone) with
      | some p => some ("missing a required argument: " ++ p.name)
      | none =>
          if ps.any (fun p => p.kind = PKind.varKw) then none
          else
            match kwargs.find? (fun kv =>
                !(ps.any (fun p => isNamedKind p.kind && p.name = kv.1))) with
            | some kv => some ("got an unexpected keyword argument: " ++ kv.1)
            | none => none

/-- Outcome of `await func(**kwargs)` / `await asyncio.to_thread(func, **kwargs)`:
call-time binding per the signature when one is inspectable (a binding failure
is a `TypeError` raised by the call), then the handler body.  For a handler
with no inspectable signature the body consumes the keyword mapping directly. -/
def pythonCall (h : Handler) (kwargs : Args) : RunOut :=
  match h.sig with
  | none => h.run kwargs
  | some ps =>
      match pyBindCall ps kwargs with
      | some m => .raiseOther m
      | none => h.run kwargs

/-- The execution `try` of `call_tool` (src/api_wrapper.py:223-232): a raised
`HTTPException` is re-raised unchanged; any other exception becomes
`HTTPException(500)` carrying the tool name and the stringified cause; a
returned value is wrapped in the success envelope. -/
def execResponse (tool : String) (h : Handler) (kwargs : Args) : Response :=
  match pythonCall h kwargs with
  | .retOk v => .ok tool v
  | .raiseHTTP s d => .httpError s d
  | .raiseOther m => .httpError 500 ("Tool \x27" ++ tool ++ "\x27 raised an error: " ++ m)

/-- Model of the `call_tool` endpoint (src/api_wrapper.py:207-232): 404 for an
unknown tool; signature introspection failure degrades to passing `args`
verbatim; otherwise the binding loop either raises its 400 (propagated
unchanged) or yields the filtered keyword mapping; then execution. -/
def callTool (toolMap : List (String × Handler)) (req : CallRequest) : Response :=
  match lookupS toolMap req.tool with
  | none => .httpError 404 ("Tool \x27" ++ req.tool ++ "\x27 not found")
  | some func =>
      match func.sig with
      | none => execResponse req.tool func req.args
      | some ps =>
          match bindGo ps req.args with
          | .error resp => resp
          | .ok kwargs => execResponse req.tool func kwargs

/-- Static shape of a constructed FastAPI application: registered routes,
middleware, and lifecycle shutdown hooks. -/
structure FacadeApp : Type where
  routes : List (String × String)
  middlewares : List String
  shutdownHooks : List String

/-- The application object built in src/api_wrapper.py:175-205: a constructor
call, one CORS middleware, four route registrations — and no lifecycle hook of
any kind (no `on_event`, no lifespan, no shutdown handler anywhere in the
file). -/
def app : FacadeApp :=
  { routes := [("GET", "/healthz"), ("GET", "/tools"),
               ("GET", "/debug/introspect"), ("POST", "/call_tool")]
    middlewares := ["CORSMiddleware"]
    shutdownHooks := [] }

/-- Cleanup entry points exposed by src/main.py: `close_pihole_sessions`
(src/main.py:109-121) is synchronous — the `Bool` flags whether a hook is
asynchronous — and it is registered only with `atexit` (src/main.py:123),
i.e. it runs at interpreter exit, not as a façade shutdown delegation. -/
def mainModuleCleanupHooks : List (String × Bool) := [("close_pihole_sessions", false)]

/-- Hooks registered via `atexit.register` in src/main.py:123. -/
def atexitHooks : List String := ["close_pihole_sessions"]

theorem lookupD_foldl_captureStep (regs : List Reg) (d : PyDict) (n : PyVal) :
    lookupD (List.foldl captureStep d regs) n =
      match lastWriter regs n with
      | some v => some v
      | none => lookupD d n := by
  induction regs generalizing d with
  | nil => rfl
  | cons r rest ih =>
    simp only [List.foldl_cons, lastWriter]
    rw [ih]
    cases hlw : lastWriter rest n with
    | some v => rfl
    | none =>
      simp only []
      by_cases hc : isCallable r.func = true
      · by_cases hk : keyEq (regName r) n = true
        · simp [captureStep, hc, hk, lookupD_dictAssign_eq]
        · simp only [Bool.not_eq_true] at hk
          simp [captureStep, hc, hk, lookupD_dictAssign_ne]
      · simp only [Bool.not_eq_true] at hc
        simp [captureStep, hc]

theorem bindGo_of_missing : ∀ (ps : List Param) (args : Args) (p : Param),
    firstMissingReq ps args = some p →
    bindGo ps args = .error (.httpError 400 ("Missing required parameter: " ++ p.name)) := by
  intro ps
  induction ps with
  | nil => intro args p h; simp [firstMissingReq] at h
  | cons q rest ih =>
    intro args p h
    simp only [firstMissingReq] at h
    by_cases hpred : (isNamedKind q.kind && !q.hasDefault && (lookupS args q.name).isNone) = true
    · rw [List.find?_cons_of_pos rest hpred] at h
      injection h with hqp
      subst hqp
      simp only [Bool.and_eq_true] at hpred
      obtain ⟨⟨hnamed, hdef'⟩, hlook'⟩ := hpred
      have hdef : q.hasDefault = false := by simpa using hdef'
      have hlook : lookupS args q.name = none := by
        simpa [Option.isNone_iff_eq_none] using hlook'
      have hor : q.kind = PKind.posOrKw ∨ q.kind = PKind.kwOnly := by
        simpa [isNamedKind] using hnamed
      simp [bindGo, hor, hlook, hdef]
    · rw [List.find?_cons_of_neg rest hpred] at h
      have hrest : firstMissingReq rest args = some p := h
      by_cases hor : q.kind = PKind.posOrKw ∨ q.kind = PKind.kwOnly
      · cases hl : lookupS args q.name with
        | some v =>
          simp only [bindGo, hor, if_true, hl]
          rw [ih args p hrest]
          rfl
        | none =>
          have hnamed : isNamedKind q.kind = true := by
            rcases hor with h1 | h1 <;> simp [isNamedKind, h1]
          have hdef : q.hasDefault = true := by
            by_contra hcon
            simp only [Bool.not_eq_true] at hcon
            exact hpred (by simp [hnamed, hcon, hl])
          simp only [bindGo, hor, if_true, hl, hdef, Bool.not_true, Bool.false_eq_true,
            if_false]
          exact ih args p hrest
      · simp only [bindGo, hor, if_false]
        exact ih args p hrest

theorem bindGo_of_nomissing : ∀ (ps : List Param) (args : Args),
    firstMissingReq ps args = none →
    bindGo ps args = .ok (boundKwargs ps args) := by
  intro ps
  induction ps with
  | nil => intro args _; rfl
  | cons q rest ih =>
    intro args h
    simp only [firstMissingReq] at h
    by_cases hpred : (isNamedKind q.kind && !q.hasDefault && (lookupS args q.name).isNone) = true
    · rw [List.find?_cons_of_pos rest hpred] at h
      simp at h
    · rw [List.find?_cons_of_neg rest hpred] at h
      have hrest : firstMissingReq rest args = none := h
      by_cases hor : q.kind = PKind.posOrKw ∨ q.kind = PKind.kwOnly
      · cases hl : lookupS args q.name with
        | some v =>
          simp only [bindGo, boundKwargs, hor, if_true, hl]
          rw [ih args hrest]
          rfl
        | none =>
          have hnamed : isNamedKind q.kind = true := by
            rcases hor with h1 | h1 <;> simp [isNamedKind, h1]
          have hdef : q.hasDefault = true := by
            by_contra hcon
            simp only [Bool.not_eq_true] at hcon
            exact hpred (by simp [hnamed, hcon, hl])
          simp only [bindGo, boundKwargs, hor, if_true, hl, hdef, Bool.not_true,
            Bool.false_eq_true, if_false]
          exact ih args hrest
      · simp only [bindGo, boundKwargs, hor, if_false]
        exact ih args hrest

theorem boundKwargs_keys_declared (ps : List Param) (args : Args) :
    ∀ kv ∈ boundKwargs ps args,
      ps.any (fun p => isNamedKind p.kind && p.name = kv.1) = true := by
  induction ps with
  | nil => intro kv h; simp [boundKwargs] at h
  | cons p rest ih =>
    intro kv hkv
    by_cases hk : p.kind = PKind.posOrKw ∨ p.kind = PKind.kwOnly
    · have hnk : isNamedKind p.kind = true := by
        rcases hk with h | h <;> simp [isNamedKind, h]
      cases hl : lookupS args p.name with
      | some v =>
        simp only [boundKwargs, hk, if_true, hl] at hkv
        rcases List.mem_cons.mp hkv with heq | hmem
        · subst heq; simp [List.any_cons, hnk]
        · have := ih kv hmem
          simp [List.any_cons, this]
      | none =>
        simp only [boundKwargs, hk, if_true, hl] at hkv
        have := ih kv hkv
        simp [List.any_cons, this]
    · simp only [boundKwargs, hk, if_false] at hkv
      have := ih kv hkv
      simp [List.any_cons, this]

theorem probeLoop_ok : ∀ (l : List PyVal) (found : PyDict),
    (∀ c ∈ l, errFree c = true) → ∃ d, probeLoop l found = .ok d := by
  intro l
  induction l with
  | nil => exact fun found _ => ⟨found, rfl⟩
  | cons c rest ih =>
    intro found h
    have hc : errFree c = true := h c (List.mem_cons_self c rest)
    have hsnd : (collectFromContainer c found).2 = none := by
      rw [collectFromContainer_snd c found []]
      simpa [errFree, Option.isNone_iff_eq_none] using hc
    rcases hcf : collectFromContainer c found with ⟨found2, e⟩
    rw [hcf] at hsnd
    simp only at hsnd
    subst hsnd
    simp only [probeLoop]
    rw [hcf]
    exact ih (subAll c found2 subAttrs) (fun x hx => h x (List.mem_cons_of_mem c hx))

theorem bindOkE {e a b : Type} (x : a) (f : a → Except e b) :
    ((Except.ok x : Except e a) >>= f) = f x := rfl

theorem resolveToolMap_of_captured (captured : PyDict) (root : PyVal)
    (exposed : Option PyVal) (h : captured ≠ []) :
    resolveToolMap captured root exposed = .ok captured := by
  cases captured with
  | nil => exact absurd rfl h
  | cons a l => rfl

theorem resolveToolMap_of_probe {captured probed : PyDict} {root : PyVal}
    (exposed : Option PyVal) (h : captured = [])
    (hp : probeToolRegistry root = .ok probed) (hne : probed ≠ []) :
    resolveToolMap captured root exposed = .ok probed := by
  subst h
  cases probed with
  | nil => exact absurd rfl hne
  | cons a l =>
    unfold resolveToolMap
    rw [hp]
    simp [bindOkE]

theorem resolveToolMap_of_export {captured : PyDict} {root : PyVal}
    {exposed : Option PyVal} (h : captured = [])
    (hp : probeToolRegistry root = .ok []) (he : filteredExportMap exposed ≠ []) :
    resolveToolMap captured root exposed = .ok (filteredExportMap exposed) := by
  subst h
  cases exposed with
  | none => exact absurd rfl he
  | some v =>
    cases v with
    | vdict es =>
      cases es with
      | nil => exact absurd rfl he
      | cons e es' =>
        have hne : (dictComp (e :: es')).isEmpty = false := by
          simp only [List.isEmpty_eq_false]
          simpa [filteredExportMap] using he
        unfold resolveToolMap
        rw [hp]
        simp [bindOkE, filteredExportMap, hne]
    | vnone => exact absurd rfl he
    | vstr s => exact absurd rfl he
    | vfun a b c d => exact absurd rfl he
    | vlist xs => exact absurd rfl he
    | vtuple xs => exact absurd rfl he
    | vset xs => exact absurd rfl he
    | vobj a b => exact absurd rfl he

theorem resolveToolMap_error {captured : PyDict} {root : PyVal}
    {exposed : Option PyVal} (h : captured = [])
    (hp : probeToolRegistry root = .ok []) (he : filteredExportMap exposed = []) :
    ∃ msg, resolveToolMap captured root exposed = .error msg := by
  subst h
  refine ⟨"Unable to locate any tools: capture failed, registry not found, and no EXPOSED_TOOLS provided.", ?_⟩
  unfold resolveToolMap
  rw [hp]
  cases exposed with
  | none => simp [bindOkE]
  | some v =>
    cases v with
    | vdict es =>
      cases es with
      | nil => simp [bindOkE]
      | cons e es' =>
        have hce : dictComp (e :: es') = [] := by
          simpa [filteredExportMap] using he
        simp [bindOkE, hce]
    | vnone => simp [bindOkE]
    | vstr s => simp [bindOkE]
    | vfun a b c d => simp [bindOkE]
    | vlist xs => simp [bindOkE]
    | vtuple xs => simp [bindOkE]
    | vset xs => simp [bindOkE]
    | vobj a b => simp [bindOkE]

/-- C1: the resolved Tool Map comes from exactly one tier — the first
non-empty of capture table, probe result and filtered explicit export — with
no merging: when the capture table is non-empty the map IS the capture table,
so for any name carried by both the capture tier and the probe tier, the
handler looked up in the resolved map (the lookup `call_tool` performs) is
the capture-tier one. -/
theorem C1_tier_priority (captured probed : PyDict) (root : PyVal)
    (exposed : Option PyVal) (hp : probeToolRegistry root = .ok probed) :
    (captured ≠ [] →
      resolveToolMap captured root exposed = .ok captured
      ∧ ∀ n h, lookupD captured n = some h →
          ∃ m, resolveToolMap captured root exposed = .ok m ∧ lookupD m n = some h)
    ∧ (captured = [] → probed ≠ [] →
        resolveToolMap captured root exposed = .ok probed)
    ∧ (captured = [] → probed = [] → filteredExportMap exposed ≠ [] →
        resolveToolMap captured root exposed = .ok (filteredExportMap exposed)) := by
  refine ⟨fun hc => ⟨resolveToolMap_of_captured captured root exposed hc, ?_⟩,
          fun hc hpne => resolveToolMap_of_probe exposed hc hp hpne,
          fun hc hpe he => ?_⟩
  · intro n h hl
    exact ⟨captured, resolveToolMap_of_captured captured root exposed hc, hl⟩
  · subst hpe
    exact resolveToolMap_of_export hc hp he

theorem C1_tier_priority_witness :
    resolveToolMap [(.vstr "a", .vfun 1 none none .vnone)] .vnone none
      = .ok [(.vstr "a", .vfun 1 none none .vnone)]
    ∧ resolveToolMap [] .vnone (some (.vdict [(.vstr "x", .vfun 1 none none .vnone)]))
      = .ok [(.vstr "x", .vfun 1 none none .vnone)] := by
  constructor
  · exact ((C1_tier_priority [(.vstr "a", .vfun 1 none none .vnone)] [] .vnone none rfl).1
      (by simp)).1
  · have h := (C1_tier_priority [] [] .vnone
      (some (.vdict [(.vstr "x", .vfun 1 none none .vnone)])) rfl).2.2 rfl rfl
      (by simp [filteredExportMap, dictComp, dictAssign, isCallable])
    simpa [filteredExportMap, dictComp, dictAssign, isCallable] using h

/-- C6: given the mapping the probe tier yields, the Tool Map resolution
fails (raising the startup RuntimeError, so the module never finishes
importing and the façade serves nothing) if and only if the capture table,
the probe result and the filtered explicit export are all empty; and whenever
resolution succeeds the resulting Tool Map is non-empty.  The map is a
module-level value computed once, so in this embedding (as in the source,
which never reassigns `TOOL_MAP` after line 172) it is immutable for the
process lifetime. -/
theorem C6_nonempty_or_fail (captured probed : PyDict) (root : PyVal)
    (exposed : Option PyVal) (hp : probeToolRegistry root = .ok probed) :
    ((∃ msg, resolveToolMap captured root exposed = .error msg) ↔
      (captured = [] ∧ probed = [] ∧ filteredExportMap exposed = []))
    ∧ (∀ m, resolveToolMap captured root exposed = .ok m → m ≠ []) := by
  constructor
  · rcases hcap : captured with _ | ⟨a, l⟩
    · rcases hpro : probed with _ | ⟨b, k⟩
      · subst hpro
        by_cases he : filteredExportMap exposed = []
        · obtain ⟨msg, hmsg⟩ := resolveToolMap_error rfl hp he
          exact ⟨fun _ => ⟨rfl, rfl, he⟩, fun _ => ⟨msg, hmsg⟩⟩
        · rw [resolveToolMap_of_export rfl hp he]
          constructor
          · rintro ⟨msg, hmsg⟩
            exact absurd hmsg (by simp)
          · rintro ⟨_, _, hfe⟩
            exact absurd hfe he
      · rw [resolveToolMap_of_probe exposed rfl hp (by simp [hpro])]
        constructor
        · rintro ⟨msg, hmsg⟩
          exact absurd hmsg (by simp)
        · rintro ⟨_, hpe, _⟩
          simp [hpro] at hpe
    · rw [resolveToolMap_of_captured _ root exposed (by simp [hcap])]
      constructor
      · rintro ⟨msg, hmsg⟩
        exact absurd hmsg (by simp)
      · rintro ⟨hce, _, _⟩
        simp [hcap] at hce
  · intro m hm
    rcases hcap : captured with _ | ⟨a, l⟩
    · rcases hpro : probed with _ | ⟨b, k⟩
      · subst hcap; subst hpro
        by_cases he : filteredExportMap exposed = []
        · obtain ⟨msg, hmsg⟩ := resolveToolMap_error rfl hp he
          rw [hmsg] at hm
          exact absurd hm (by simp)
        · rw [resolveToolMap_of_export rfl hp he] at hm
          have : m = filteredExportMap exposed := by
            have := hm
            injection this with h2
            exact h2.symm
          rw [this]
          exact he
      · subst hcap
        rw [resolveToolMap_of_probe exposed rfl hp (by simp [hpro])] at hm
        injection hm with h2
        rw [← h2, hpro]
        simp
    · subst hcap
      rw [resolveToolMap_of_captured _ root exposed (by simp)] at hm
      injection hm with h2
      rw [← h2]
      simp

theorem C6_nonempty_or_fail_witness :
    (∃ msg, resolveToolMap [] .vnone none = .error msg)
    ∧ ∀ m, resolveToolMap [(.vstr "a", .vfun 1 none none .vnone)] .vnone none = .ok m →
        m ≠ [] := by
  constructor
  · exact (C6_nonempty_or_fail [] [] .vnone none rfl).1.mpr ⟨rfl, rfl, rfl⟩
  · exact (C6_nonempty_or_fail [(.vstr "a", .vfun 1 none none .vnone)] [] .vnone none rfl).2

/-- C2 counterexample: two registrations resolving to the same name "t" with
different callable handlers (distinguished by identity `fid`).  The claim says
the capture table keeps the EARLIER handler; the source performs
`CAPTURED_TOOLS[tool_name] = func`, a plain dict assignment, so the table
holds the handler of the LATER registration. -/
theorem C2_counterexample :
    lookupD (captureTable
        [⟨some (.vstr "t"), [], .vfun 1 none none .vnone⟩,
         ⟨some (.vstr "t"), [], .vfun 2 none none .vnone⟩]) (.vstr "t")
      = some (.vfun 2 none none .vnone)
    ∧ (PyVal.vfun 2 none none .vnone) ≠ .vfun 1 none none .vnone := by
  refine ⟨rfl, fun h => ?_⟩
  injection h with h1
  exact absurd h1 (by decide)

/-- C2 amended: within the capture tier the LAST writer wins — for every
registration sequence and every name, the handler the capture table records
is the one of the latest registration that resolved to that name with a
callable function (`lastWriter`, written from the amended claim). -/
theorem C2_capture_last_writer_wins (regs : List Reg) (n : PyVal) :
    lookupD (captureTable regs) n = lastWriter regs n := by
  have h := lookupD_foldl_captureStep regs [] n
  rw [captureTable] at *
  rw [h]
  cases lastWriter regs n <;> rfl

/-- C9 counterexample: a registration call passing the explicit keyword
argument `name=""` together with a positional string argument.  The claim says
the explicit `name` keyword argument wins whenever one was passed; the source
tests `if not tool_name:`, a truthiness test, so the falsy empty string is
discarded and the positional argument is recorded instead. -/
theorem C9_counterexample :
    resolveToolName (some (.vstr "")) [.vstr "real"] (some "fn") = .vstr "real"
    ∧ (PyVal.vstr "real") ≠ .vstr "" := by
  refine ⟨rfl, fun h => ?_⟩
  injection h with h1
  exact absurd h1 (by decide)

/-- C9 amended: the recorded tool name is the explicit `name` keyword argument
when one was passed with a truthy value; otherwise the first positional
argument when it is a string (empty or not); otherwise the declared
`__name__` of the handler when present and non-empty; otherwise the literal
"unnamed_tool". -/
theorem C9_name_resolution (kw : Option PyVal) (targs : List PyVal)
    (fn : Option String) :
    (pyTruthy (kw.getD .vnone) = true →
      resolveToolName kw targs fn = kw.getD .vnone)
    ∧ (pyTruthy (kw.getD .vnone) = false → ∀ s, headStr targs = some s →
        resolveToolName kw targs fn = .vstr s)
    ∧ (pyTruthy (kw.getD .vnone) = false → headStr targs = none →
        ∀ s, fn = some s → s.isEmpty = false → resolveToolName kw targs fn = .vstr s)
    ∧ (pyTruthy (kw.getD .vnone) = false → headStr targs = none →
        (fn = none ∨ fn = some "") →
        resolveToolName kw targs fn = .vstr "unnamed_tool") := by
  refine ⟨fun ht => ?_, fun ht s hs => ?_, fun ht hs s hf hne => ?_, fun ht hs hf => ?_⟩
  · simp [resolveToolName, ht]
  · simp [resolveToolName, ht, hs]
  · simp [resolveToolName, ht, hs, hf, hne]
  · rcases hf with hf | hf
    · simp [resolveToolName, ht, hs, hf]
    · simp [resolveToolName, ht, hs, hf, String.isEmpty]

theorem C9_name_resolution_witness :
    resolveToolName (some (.vstr "x")) [] none = .vstr "x"
    ∧ resolveToolName none [.vstr "y"] none = .vstr "y"
    ∧ resolveToolName none [] (some "f") = .vstr "f"
    ∧ resolveToolName none [] none = .vstr "unnamed_tool" :=
  ⟨(C9_name_resolution (some (.vstr "x")) [] none).1 rfl,
   (C9_name_resolution none [.vstr "y"] none).2.1 rfl "y" rfl,
   (C9_name_resolution none [] (some "f")).2.2.1 rfl rfl "f" rfl rfl,
   (C9_name_resolution none [] none).2.2.2 rfl rfl (Or.inl rfl)⟩

theorem callTool_notfound {toolMap : List (String × Handler)} {req : CallRequest}
    (h404 : lookupS toolMap req.tool = none) :
    callTool toolMap req = .httpError 404 ("Tool \x27" ++ req.tool ++ "\x27 not found") := by
  simp [callTool, h404]

theorem callTool_nosig {toolMap : List (String × Handler)} {req : CallRequest}
    {h : Handler} (hl : lookupS toolMap req.tool = some h) (hs : h.sig = none) :
    callTool toolMap req = execResponse req.tool h req.args := by
  simp [callTool, hl, hs]

theorem callTool_missing {toolMap : List (String × Handler)} {req : CallRequest}
    {h : Handler} {ps : List Param} {p : Param}
    (hl : lookupS toolMap req.tool = some h) (hs : h.sig = some ps)
    (hm : firstMissingReq ps req.args = some p) :
    callTool toolMap req = .httpError 400 ("Missing required parameter: " ++ p.name) := by
  simp [callTool, hl, hs, bindGo_of_missing ps req.args p hm]

theorem callTool_nomissing {toolMap : List (String × Handler)} {req : CallRequest}
    {h : Handler} {ps : List Param}
    (hl : lookupS toolMap req.tool = some h) (hs : h.sig = some ps)
    (hm : firstMissingReq ps req.args = none) :
    callTool toolMap req = execResponse req.tool h (boundKwargs ps req.args) := by
  simp [callTool, hl, hs, bindGo_of_nomissing ps req.args hm]

/-- Handler with the inspectable signature `(a)` whose body reports exactly
which keyword names it received. -/
def echoKeysHandler : Handler :=
  ⟨some [⟨"a", .posOrKw, false⟩],
   fun kw => .retOk (.vlist (kw.map (fun q => .vstr q.1)))⟩

/-- C3 counterexample: `echoKeysHandler` called with `args` containing the
extra key "extra".  The handler body reports exactly which keyword names it
received: only "a".  The claim says the extra key is passed through into the
call; the binding loop of `call_tool` only copies declared parameters into
`kwargs`, so the extra key is dropped. -/
theorem C3_counterexample :
    callTool [("t", echoKeysHandler)] ⟨"t", [("a", .vnone), ("extra", .vstr "x")]⟩
      = .ok "t" (.vlist [.vstr "a"])
    ∧ (PyVal.vstr "extra") ∉ [PyVal.vstr "a"] := by
  refine ⟨rfl, fun hmem => ?_⟩
  have h := List.mem_singleton.mp hmem
  injection h with h1
  exact absurd h1 (by decide)

/-- C3 amended: `args` is passed through verbatim (extra keys included) only
when the signature of the handler cannot be inspected; for a handler with an
inspectable signature every keyword actually passed to the call names a
declared named parameter, so extra keys are dropped, not passed through. -/
theorem C3_extra_keys_dropped (toolMap : List (String × Handler)) (name : String)
    (h : Handler) (args : Args) (hl : lookupS toolMap name = some h) :
    (h.sig = none → callTool toolMap ⟨name, args⟩ = execResponse name h args)
    ∧ (∀ ps, h.sig = some ps → firstMissingReq ps args = none →
        callTool toolMap ⟨name, args⟩ = execResponse name h (boundKwargs ps args)
        ∧ ∀ kv ∈ boundKwargs ps args,
            ps.any (fun p => isNamedKind p.kind && p.name = kv.1) = true) :=
  ⟨fun hs => callTool_nosig hl hs,
   fun _ hs hm => ⟨callTool_nomissing hl hs hm, boundKwargs_keys_declared _ args⟩⟩

theorem C3_extra_keys_dropped_witness :
    callTool [("t", echoKeysHandler)] ⟨"t", [("a", .vnone), ("extra", .vstr "x")]⟩
      = execResponse "t" echoKeysHandler
          (boundKwargs [⟨"a", .posOrKw, false⟩] [("a", .vnone), ("extra", .vstr "x")]) :=
  ((C3_extra_keys_dropped [("t", echoKeysHandler)] "t" echoKeysHandler
      [("a", .vnone), ("extra", .vstr "x")] rfl).2
    [⟨"a", .posOrKw, false⟩] rfl rfl).1

/-- Two required named-or-positional parameters and a constant handler body,
shared by the C4 theorems. -/
def twoReqParams : List Param := [⟨"p", .posOrKw, false⟩, ⟨"q", .posOrKw, false⟩]

/-- Handler with signature `(p, q)`, both required. -/
def twoReqHandler : Handler := ⟨some twoReqParams, fun _ => .retOk (.vstr "ran")⟩

/-- C4 counterexample: with both `p` and `q` required and `args = {}`, the 400
detail names only `p` — so the claim instance for the also-missing `q` (the
call "fails with HTTP 400 whose detail names q") is false; and with `p`
supplied but `q` missing, the response is that 400, not an execution result —
so the claim instance "if p is present in args ... execution proceeds" is
false as well. -/
theorem C4_counterexample :
    callTool [("t", twoReqHandler)] ⟨"t", []⟩
      = .httpError 400 "Missing required parameter: p"
    ∧ ("Missing required parameter: p" : String) ≠ "Missing required parameter: q"
    ∧ callTool [("t", twoReqHandler)] ⟨"t", [("p", .vnone)]⟩
      = .httpError 400 "Missing required parameter: q"
    ∧ ∀ v, Response.httpError 400 "Missing required parameter: q" ≠ .ok "t" v := by
  exact ⟨rfl, by decide, rfl, fun v h => Response.noConfusion h⟩

/-- C4 amended: for a handler with an inspectable signature, if any required
named parameter is absent from `args` the call fails with HTTP 400 whose
detail names the FIRST such parameter in declaration order and the handler is
never executed (the conclusion does not depend on the handler body); if every
required named parameter is present — whatever the bound values, null
included — binding succeeds and execution proceeds. -/
theorem C4_required_param_binding (toolMap : List (String × Handler)) (name : String)
    (h : Handler) (ps : List Param) (args : Args)
    (hl : lookupS toolMap name = some h) (hs : h.sig = some ps) :
    (∀ p, firstMissingReq ps args = some p →
        callTool toolMap ⟨name, args⟩
          = .httpError 400 ("Missing required parameter: " ++ p.name))
    ∧ (firstMissingReq ps args = none →
        callTool toolMap ⟨name, args⟩ = execResponse name h (boundKwargs ps args)) :=
  ⟨fun _ hm => callTool_missing hl hs hm, fun hm => callTool_nomissing hl hs hm⟩

theorem C4_required_param_binding_witness :
    callTool [("t", twoReqHandler)] ⟨"t", []⟩
      = .httpError 400 ("Missing required parameter: " ++ "p")
    ∧ callTool [("t", twoReqHandler)] ⟨"t", [("p", .vnone), ("q", .vnone)]⟩
      = execResponse "t" twoReqHandler
          (boundKwargs twoReqParams [("p", .vnone), ("q", .vnone)]) :=
  ⟨(C4_required_param_binding [("t", twoReqHandler)] "t" twoReqHandler twoReqParams
      [] rfl rfl).1 ⟨"p", .posOrKw, false⟩ rfl,
   (C4_required_param_binding [("t", twoReqHandler)] "t" twoReqHandler twoReqParams
      [("p", .vnone), ("q", .vnone)] rfl rfl).2 rfl⟩

/-- Handler whose body raises `HTTPException(418, "teapot")`. -/
def teapotHandler : Handler := ⟨some [], fun _ => .raiseHTTP 418 "teapot"⟩

/-- Handler whose body raises an ordinary exception. -/
def boomHandler : Handler := ⟨some [], fun _ => .raiseOther "boom"⟩

/-- C5 counterexample: a handler that itself raises an `HTTPException` (418).
The claim says every handler-raised exception yields HTTP 500 with the tool
name and cause; the `except HTTPException: raise` clause in the execution
`try` of `call_tool` re-raises it unchanged instead, so the façade answers
418, not 500. -/
theorem C5_counterexample :
    callTool [("t", teapotHandler)] ⟨"t", []⟩ = .httpError 418 "teapot"
    ∧ ∀ d, Response.httpError 418 "teapot" ≠ .httpError 500 d := by
  refine ⟨rfl, fun d h => ?_⟩
  injection h with h1 _
  exact absurd h1 (by decide)

/-- C5 amended: a handler-raised exception other than an `HTTPException`
yields HTTP 500 whose detail carries the tool name and the stringified cause;
a handler-raised `HTTPException` propagates unchanged; and the NotFound (404)
of lookup and the BadRequest (400) of binding propagate unchanged as well,
never re-wrapped as 500. -/
theorem C5_error_propagation (toolMap : List (String × Handler)) (name : String)
    (args : Args) (h : Handler) :
    (lookupS toolMap name = none →
      callTool toolMap ⟨name, args⟩
        = .httpError 404 ("Tool \x27" ++ name ++ "\x27 not found"))
    ∧ (lookupS toolMap name = some h → h.sig = none →
        (∀ m, h.run args = .raiseOther m →
          callTool toolMap ⟨name, args⟩
            = .httpError 500 ("Tool \x27" ++ name ++ "\x27 raised an error: " ++ m))
        ∧ (∀ s d, h.run args = .raiseHTTP s d →
            callTool toolMap ⟨name, args⟩ = .httpError s d))
    ∧ (∀ ps, lookupS toolMap name = some h → h.sig = some ps →
        (∀ p, firstMissingReq ps args = some p →
          callTool toolMap ⟨name, args⟩
            = .httpError 400 ("Missing required parameter: " ++ p.name))
        ∧ (firstMissingReq ps args = none →
            pyBindCall ps (boundKwargs ps args) = none →
            (∀ m, h.run (boundKwargs ps args) = .raiseOther m →
              callTool toolMap ⟨name, args⟩
                = .httpError 500 ("Tool \x27" ++ name ++ "\x27 raised an error: " ++ m))
            ∧ (∀ s d, h.run (boundKwargs ps args) = .raiseHTTP s d →
                callTool toolMap ⟨name, args⟩ = .httpError s d))) := by
  refine ⟨fun h404 => callTool_notfound h404,
          fun hl hs => ⟨fun m hm => ?_, fun s d hm => ?_⟩,
          fun ps hl hs => ⟨fun p hm => callTool_missing hl hs hm,
            fun hnm hbc => ⟨fun m hm => ?_, fun s d hm => ?_⟩⟩⟩
  · rw [callTool_nosig hl hs]
    simp [execResponse, pythonCall, hs, hm]
  · rw [callTool_nosig hl hs]
    simp [execResponse, pythonCall, hs, hm]
  · rw [callTool_nomissing hl hs hnm]
    simp [execResponse, pythonCall, hs, hbc, hm]
  · rw [callTool_nomissing hl hs hnm]
    simp [execResponse, pythonCall, hs, hbc, hm]

theorem C5_error_propagation_witness :
    callTool [("t", boomHandler)] ⟨"t", []⟩
      = .httpError 500 ("Tool \x27" ++ "t" ++ "\x27 raised an error: " ++ "boom")
    ∧ callTool [("t", boomHandler)] ⟨"u", []⟩
      = .httpError 404 ("Tool \x27" ++ "u" ++ "\x27 not found")
    ∧ callTool [("t", teapotHandler)] ⟨"t", []⟩ = .httpError 418 "teapot" :=
  ⟨((((C5_error_propagation [("t", boomHandler)] "t" [] boomHandler).2.2 []) rfl rfl).2
      rfl rfl).1 "boom" rfl,
   (C5_error_propagation [("t", boomHandler)] "u" [] boomHandler).1 rfl,
   ((((C5_error_propagation [("t", teapotHandler)] "t" [] teapotHandler).2.2 []) rfl rfl).2
      rfl rfl).2 418 "teapot" rfl⟩

/-- C10: the missing-parameter check of the binding loop covers only
named-or-positional and named-only parameters.  A handler declaring a
required positional-only parameter (the only other kind that can be
required — `*args`/`**kwargs` never are) is invoked without it even when all
required named parameters are bound, the 400 BadRequest is never produced for
it, and the resulting call-time `TypeError` surfaces as HTTP 500
(ToolExecutionError) instead. -/
theorem C10_positional_only_params (toolMap : List (String × Handler))
    (name : String) (h : Handler) (ps : List Param) (args : Args) (p : Param)
    (hl : lookupS toolMap name = some h) (hs : h.sig = some ps)
    (hnm : firstMissingReq ps args = none) (hp : p ∈ ps)
    (hkind : p.kind = PKind.posOnly) (hdef : p.hasDefault = false) :
    ∃ m, callTool toolMap ⟨name, args⟩
      = .httpError 500 ("Tool \x27" ++ name ++ "\x27 raised an error: " ++ m) := by
  have hsome : (ps.find? (fun q => q.kind = PKind.posOnly && !q.hasDefault)).isSome := by
    rw [List.find?_isSome]
    exact ⟨p, hp, by simp [hkind, hdef]⟩
  obtain ⟨p2, hp2⟩ := Option.isSome_iff_exists.mp hsome
  refine ⟨"missing a required positional-only argument: " ++ p2.name, ?_⟩
  rw [callTool_nomissing hl hs hnm]
  simp [execResponse, pythonCall, hs, pyBindCall, hp2]

/-- Handler with the signature `(x, /)`: one required positional-only
parameter. -/
def posOnlyHandler : Handler := ⟨some [⟨"x", .posOnly, false⟩], fun _ => .retOk .vnone⟩

theorem C10_positional_only_params_witness :
    ∃ m, callTool [("t", posOnlyHandler)] ⟨"t", []⟩
      = .httpError 500 ("Tool \x27" ++ "t" ++ "\x27 raised an error: " ++ m) :=
  C10_positional_only_params [("t", posOnlyHandler)] "t" posOnlyHandler
    [⟨"x", .posOnly, false⟩] [] ⟨"x", .posOnly, false⟩ rfl rfl rfl
    (List.mem_singleton.mpr rfl) rfl rfl

/-- C7: the claim (and the comments of src/main.py itself, lines 2-5 and 105,
which promise that the wrapper calls `close_pihole_sessions` during FastAPI
shutdown) requires the façade to delegate to a host cleanup hook on shutdown,
preferring an asynchronous one.  The wrapper registers no shutdown hook of
any kind — the application carries an empty shutdown-hook list — and the only
cleanup registration anywhere is the synchronous `atexit` hook inside
src/main.py; no asynchronous cleanup hook exists. -/
theorem C7_no_shutdown_delegation :
    app.shutdownHooks = []
    ∧ atexitHooks = ["close_pihole_sessions"]
    ∧ mainModuleCleanupHooks.all (fun hk => !hk.2) = true :=
  ⟨rfl, rfl, rfl⟩

/-- C8 counterexample: a host root instance whose `tools` attribute getter
raises.  The claim says the probe swallows every traversal exception and
never raises; but the `getattr(root, attr, None)` calls that collect
candidates are not inside any `try` (the `None` default absorbs only
AttributeError), so the probe raises. -/
theorem C8_counterexample :
    probeToolRegistry (.vobj [("tools", some "boom", .vnone)] []) = .error "boom"
    ∧ ∀ d, (Except.error "boom" : Except String PyDict) ≠ .ok d :=
  ⟨rfl, fun _ h => Except.noConfusion h⟩

/-- C8 amended: exceptions are swallowed per candidate only inside the
generic-object enumeration branch of `_collect_from_container` (which never
lets one escape, second conjunct) and around the sub-accessor probes; when
candidate collection itself raises nothing and every surviving candidate
traverses without an uncaught exception, the probe returns a (possibly empty)
mapping.  A raising attribute getter during candidate collection, or a
raising heuristic extraction on a dict or sequence candidate, propagates out
of the probe (see the counterexample). -/
theorem C8_probe_exception_scope (root : PyVal) (cs : List PyVal)
    (hc : collectCandidates root = .ok cs)
    (hf : (dedupFlat [] cs).all errFree = true) :
    (∃ d, probeToolRegistry root = .ok d)
    ∧ ∀ attrs dirNames out, (collectFromContainer (.vobj attrs dirNames) out).2 = none := by
  constructor
  · obtain ⟨d, hd⟩ := probeLoop_ok (dedupFlat [] cs) []
      (fun c hcmem => List.all_eq_true.mp hf c hcmem)
    refine ⟨d, ?_⟩
    unfold probeToolRegistry
    rw [hc]
    simpa [bindOkE] using hd
  · intro attrs dirNames out
    rfl

theorem C8_probe_exception_scope_witness :
    ∃ d, probeToolRegistry
        (.vobj [("tools", none, .vdict [(.vstr "t1", .vfun 1 none none .vnone)])] [])
      = .ok d :=
  (C8_probe_exception_scope
    (.vobj [("tools", none, .vdict [(.vstr "t1", .vfun 1 none none .vnone)])] [])
    [.vdict [(.vstr "t1", .vfun 1 none none .vnone)], .vnone, .vnone, .vnone, .vnone, .vnone]
    rfl rfl).1

end Wrapper
